import Mathlib

/-!
Shallow embedding of the PrismLock contract (src/unnamed/part_001, Solidity).
The contract is a time-locked vault keyed by account address: `stake` creates
an encrypted-amount record, `requestWithdrawal` flips the withdrawal flag once
the lock elapses, `finalizeWithdrawal` verifies a decryption proof, deletes the
record and transfers the funds.  EVM revert semantics are modelled by `Except`:
an operation that reverts returns `.error e` and the caller keeps the pre-call
state (see `applyOp`).  External collaborators (the FHE signature check, the
ABI decoder and the native value transfer) are oracles bundled in `Env`.
-/

namespace PrismLock

abbrev Address := Nat

/-- A bytes32 FHE handle, as a natural number. An `euint128` value is its
256-bit handle; `FHE.toBytes32` is the identity unwrap. -/
abbrev Handle := Nat

/-- Source: `uint64 public constant MIN_LOCK_DURATION = 1 days;` -/
def MIN_LOCK_DURATION : Nat := 86400

/-- Source: `uint64 public constant MAX_LOCK_DURATION = 365 days;` -/
def MAX_LOCK_DURATION : Nat := 31536000

/-- Source: `type(uint128).max` -/
def UINT128_MAX : Nat := 2 ^ 128 - 1

def UINT64_MOD : Nat := 2 ^ 64

def UINT256_MOD : Nat := 2 ^ 256

/-- Addition as the EVM performs it on `uint256` operands (`uint256(x) + y`
at src lines 81 and 114). The result is reduced modulo `2^256`. -/
def uint256add (x y : Nat) : Nat := (x + y) % UINT256_MOD

/-- Function `FHE.toBytes32` unwraps an `euint128` to its underlying bytes32 handle. -/
def toBytes32 (h : Handle) : Nat := h

/-- The `StakeData` struct stored in `mapping(address => StakeData) _stakes`.
`exists_` renders the Solidity field `exists`. Fields `lockDuration` and
`startTimestamp` are `uint64`, so in every reachable state they are `< 2^64`. -/
structure StakeData where
  encryptedAmount : Handle
  lockDuration : Nat
  startTimestamp : Nat
  withdrawalRequested : Bool
  exists_ : Bool
deriving Repr, DecidableEq

/-- The zero-initialised struct: what `_stakes[a]` holds for an account with no
record, and what `delete _stakes[a]` writes. -/
def StakeData.empty : StakeData :=
  { encryptedAmount := 0, lockDuration := 0, startTimestamp := 0
    withdrawalRequested := false, exists_ := false }

/-- Contract storage plus the observable effects the claims mention: the FHE
ACL bit set by `FHE.makePubliclyDecryptable`, and the list of value transfers
the contract has performed (most recent first). -/
structure State where
  stakes : Address → StakeData
  pubDecryptable : Handle → Bool
  payouts : List (Address × Nat)

/-- Freshly deployed contract: every mapping slot zero, no transfers done. -/
def initState : State :=
  { stakes := fun _ => StakeData.empty, pubDecryptable := fun _ => false, payouts := [] }

/-- The typed revert reasons. The first eight are the contract's own `error`
declarations. `ProofVerificationFailed` is the failure surfaced by the external
`FHE.checkSignatures` library call (named as in the spec, §4.2) and
`TransferFailed` is the `require(sent, "ETH transfer failed")` revert (named as
in the spec, §7). -/
inductive VaultError where
  | StakeAlreadyActive
  | InvalidLockDuration
  | InvalidStakeAmount
  | StakeAmountTooLarge
  | NoActiveStake
  | LockPeriodActive
  | WithdrawalAlreadyRequested
  | WithdrawalNotRequested
  | ProofVerificationFailed
  | TransferFailed
deriving Repr, DecidableEq

/-- External collaborators of `finalizeWithdrawal`, as oracles:
`checkSignatures handles cleartexts proof` is the KMS signature verification,
`decodeU128 cleartexts` is `abi.decode(abiEncodedCleartexts, (uint128))`, and
`transferOk account amount` tells whether `account.call{value: amount}("")`
succeeds. -/
structure Env where
  checkSignatures : List Handle → Nat → Nat → Bool
  decodeU128 : Nat → Nat
  transferOk : Address → Nat → Bool

/-- Entry point `stake(uint64 lockDurationSeconds) payable` (src lines 47-76).
`msgValue` is `msg.value`, `now` is `block.timestamp`, `freshHandle` is the
handle returned by `FHE.asEuint128`. -/
def stake (s : State) (sender : Address)
    (lockDurationSeconds msgValue now freshHandle : Nat) : Except VaultError State :=
  if (s.stakes sender).exists_ then .error .StakeAlreadyActive
  else if lockDurationSeconds < MIN_LOCK_DURATION ∨ MAX_LOCK_DURATION < lockDurationSeconds then
    .error .InvalidLockDuration
  else if msgValue = 0 then .error .InvalidStakeAmount
  else if UINT128_MAX < msgValue then .error .StakeAmountTooLarge
  else
    .ok { s with
      stakes := fun a =>
        if a = sender then
          { encryptedAmount := freshHandle
            lockDuration := lockDurationSeconds
            startTimestamp := now % UINT64_MOD
            withdrawalRequested := false
            exists_ := true }
        else s.stakes a }

/-- The `StakeSummary` struct returned by `getStakeSummary` (src lines 21-28). -/
structure StakeSummary where
  encryptedAmount : Nat
  startTimestamp : Nat
  unlockTimestamp : Nat
  lockDuration : Nat
  withdrawalRequested : Bool
  exists_ : Bool
deriving Repr, DecidableEq

/-- View `getStakeSummary(address user)` (src lines 79-92): a pure projection of the
record; `unlockTimestamp` is `uint256(startTimestamp) + lockDuration` when a
record exists and `0` otherwise. -/
def getStakeSummary (s : State) (user : Address) : StakeSummary :=
  let data := s.stakes user
  { encryptedAmount := if data.exists_ then toBytes32 data.encryptedAmount else 0
    startTimestamp := if data.exists_ then data.startTimestamp else 0
    unlockTimestamp := if data.exists_ then uint256add data.startTimestamp data.lockDuration else 0
    lockDuration := data.lockDuration
    withdrawalRequested := data.withdrawalRequested
    exists_ := data.exists_ }

/-- View `getEncryptedAmount(address user)` (src lines 95-101). -/
def getEncryptedAmount (s : State) (user : Address) : Nat :=
  if (s.stakes user).exists_ then toBytes32 (s.stakes user).encryptedAmount else 0

/-- View `hasStake(address user)` (src lines 104-106). -/
def hasStake (s : State) (user : Address) : Bool :=
  (s.stakes user).exists_

/-- Entry point `requestWithdrawal()` (src lines 109-125). `now` is `block.timestamp`.
On success it sets `withdrawalRequested` and marks the record's handle
publicly decryptable. -/
def requestWithdrawal (s : State) (sender : Address) (now : Nat) : Except VaultError State :=
  let data := s.stakes sender
  if !data.exists_ then .error .NoActiveStake
  else if now < uint256add data.startTimestamp data.lockDuration then .error .LockPeriodActive
  else if data.withdrawalRequested then .error .WithdrawalAlreadyRequested
  else
    .ok { s with
      stakes := fun a =>
        if a = sender then { data with withdrawalRequested := true } else s.stakes a
      pubDecryptable := fun h =>
        if h = data.encryptedAmount then true else s.pubDecryptable h }

/-- Effect of `delete _stakes[msg.sender]` (src line 146): the ledger state in force
while the value transfer of `finalizeWithdrawal` is in flight. -/
def eraseStake (s : State) (sender : Address) : State :=
  { s with stakes := fun a => if a = sender then StakeData.empty else s.stakes a }

/-- Entry point `finalizeWithdrawal(bytes abiEncodedCleartexts, bytes decryptionProof)`
(src lines 130-152). The record is deleted (`eraseStake`) strictly before the
transfer; a failed transfer hits `require(sent, ...)`, so the whole call
reverts and (by EVM semantics) the deletion is rolled back — modelled by the
`.error` result discarding the intermediate state. -/
def finalizeWithdrawal (env : Env) (s : State) (sender : Address)
    (abiEncodedCleartexts decryptionProof : Nat) : Except VaultError State :=
  let data := s.stakes sender
  if !data.exists_ then .error .NoActiveStake
  else if !data.withdrawalRequested then .error .WithdrawalNotRequested
  else if !(env.checkSignatures [toBytes32 data.encryptedAmount]
      abiEncodedCleartexts decryptionProof) then
    .error .ProofVerificationFailed
  else
    let decryptedAmount := env.decodeU128 abiEncodedCleartexts
    let s' := eraseStake s sender
    if env.transferOk sender decryptedAmount then
      .ok { s' with payouts := (sender, decryptedAmount) :: s'.payouts }
    else .error .TransferFailed

/-- One external call to a mutating entry point, with its arguments. -/
inductive Op where
  | stakeOp (sender : Address) (lockDurationSeconds msgValue now freshHandle : Nat)
  | requestOp (sender : Address) (now : Nat)
  | finalizeOp (sender : Address) (abiEncodedCleartexts decryptionProof : Nat)
deriving Repr, DecidableEq

/-- The `msg.sender` of an operation. -/
def Op.sender : Op → Address
  | .stakeOp a _ _ _ _ => a
  | .requestOp a _ => a
  | .finalizeOp a _ _ => a

/-- Transaction-level semantics: a revert leaves the state unchanged. -/
def applyOp (env : Env) (s : State) : Op → State
  | .stakeOp a d v n f =>
      match stake s a d v n f with
      | .ok s' => s'
      | .error _ => s
  | .requestOp a n =>
      match requestWithdrawal s a n with
      | .ok s' => s'
      | .error _ => s
  | .finalizeOp a c p =>
      match finalizeWithdrawal env s a c p with
      | .ok s' => s'
      | .error _ => s

/-- The final state after a sequence of transactions. -/
def runOps (env : Env) (s : State) (ops : List Op) : State :=
  ops.foldl (applyOp env) s

/-- All states visited while running a sequence of transactions, the initial
state first. -/
def runStates (env : Env) (s : State) : List Op → List State
  | [] => [s]
  | op :: ops => s :: runStates env (applyOp env s op) ops

/-- The error `stake` reports, written as the spec's §4.1 list reads: the four
conditions tested in order, first match wins, `none` when the call succeeds. -/
def stakeErrorSpec (s : State) (sender : Address)
    (lockDurationSeconds msgValue : Nat) : Option VaultError :=
  if (s.stakes sender).exists_ then some .StakeAlreadyActive
  else if lockDurationSeconds < MIN_LOCK_DURATION ∨ MAX_LOCK_DURATION < lockDurationSeconds then
    some .InvalidLockDuration
  else if msgValue = 0 then some .InvalidStakeAmount
  else if UINT128_MAX < msgValue then some .StakeAmountTooLarge
  else none

/-! ### Characterisation lemmas for the three mutating entry points -/

theorem stake_ok_inv {s : State} {sender : Address} {d v n f : Nat} {s' : State}
    (h : stake s sender d v n f = .ok s') :
    (s.stakes sender).exists_ = false
    ∧ s'.stakes sender =
        { encryptedAmount := f, lockDuration := d, startTimestamp := n % UINT64_MOD
          withdrawalRequested := false, exists_ := true }
    ∧ (∀ b, b ≠ sender → s'.stakes b = s.stakes b) := by
  unfold stake at h
  split_ifs at h with h1 h2 h3 h4
  cases h
  refine ⟨by simpa using h1, by simp, ?_⟩
  intro b hb
  simp [hb]

theorem requestWithdrawal_ok_inv {s : State} {sender : Address} {now : Nat} {s' : State}
    (h : requestWithdrawal s sender now = .ok s') :
    (s.stakes sender).exists_ = true
    ∧ (s.stakes sender).withdrawalRequested = false
    ∧ uint256add (s.stakes sender).startTimestamp (s.stakes sender).lockDuration ≤ now
    ∧ s'.stakes sender = { s.stakes sender with withdrawalRequested := true }
    ∧ (∀ b, b ≠ sender → s'.stakes b = s.stakes b)
    ∧ s'.pubDecryptable (s.stakes sender).encryptedAmount = true := by
  simp only [requestWithdrawal] at h
  split_ifs at h with h1 h2 h3
  cases h
  refine ⟨by simpa using h1, by simpa using h3, by omega, by simp, ?_, by simp⟩
  intro b hb
  simp [hb]

theorem finalizeWithdrawal_ok_inv {env : Env} {s : State} {sender : Address}
    {cl pf : Nat} {s' : State}
    (h : finalizeWithdrawal env s sender cl pf = .ok s') :
    (s.stakes sender).exists_ = true
    ∧ (s.stakes sender).withdrawalRequested = true
    ∧ env.checkSignatures [toBytes32 (s.stakes sender).encryptedAmount] cl pf = true
    ∧ env.transferOk sender (env.decodeU128 cl) = true
    ∧ s'.stakes sender = StakeData.empty
    ∧ (∀ b, b ≠ sender → s'.stakes b = s.stakes b)
    ∧ s'.payouts = (sender, env.decodeU128 cl) :: s.payouts := by
  simp only [finalizeWithdrawal] at h
  split_ifs at h with h1 h2 h3 h4
  cases h
  refine ⟨by simpa using h1, by simpa using h2, by simpa using h3, h4, ?_, ?_, ?_⟩
  · simp [eraseStake]
  · intro b hb
    simp [eraseStake, hb]
  · simp [eraseStake]

theorem finalizeWithdrawal_succeeds {env : Env} {s : State} {sender : Address} {cl pf : Nat}
    (hex : (s.stakes sender).exists_ = true)
    (hwr : (s.stakes sender).withdrawalRequested = true)
    (hsig : env.checkSignatures [toBytes32 (s.stakes sender).encryptedAmount] cl pf = true)
    (htr : env.transferOk sender (env.decodeU128 cl) = true) :
    ∃ s', finalizeWithdrawal env s sender cl pf = .ok s' := by
  refine ⟨{ eraseStake s sender with
    payouts := (sender, env.decodeU128 cl) :: (eraseStake s sender).payouts }, ?_⟩
  simp only [finalizeWithdrawal]
  rw [if_neg (by simp [hex]), if_neg (by simp [hwr]), if_neg (by simp [hsig]), if_pos htr]

theorem applyOp_frame (env : Env) (s : State) (op : Op) (b : Address)
    (hne : op.sender ≠ b) :
    (applyOp env s op).stakes b = s.stakes b := by
  cases op with
  | stakeOp snd d v n f =>
    simp only [Op.sender] at hne
    cases h : stake s snd d v n f with
    | ok s' =>
      have hfr := (stake_ok_inv h).2.2 b (Ne.symm hne)
      simpa [applyOp, h] using hfr
    | error e => simp [applyOp, h]
  | requestOp snd n =>
    simp only [Op.sender] at hne
    cases h : requestWithdrawal s snd n with
    | ok s' =>
      have hfr := (requestWithdrawal_ok_inv h).2.2.2.2.1 b (Ne.symm hne)
      simpa [applyOp, h] using hfr
    | error e => simp [applyOp, h]
  | finalizeOp snd cl pf =>
    simp only [Op.sender] at hne
    cases h : finalizeWithdrawal env s snd cl pf with
    | ok s' =>
      have hfr := (finalizeWithdrawal_ok_inv h).2.2.2.2.2.1 b (Ne.symm hne)
      simpa [applyOp, h] using hfr
    | error e => simp [applyOp, h]

theorem applyOp_step_fields (env : Env) (s : State) (op : Op) (a : Address)
    (hpre : (s.stakes a).exists_ = true)
    (hpost : ((applyOp env s op).stakes a).exists_ = true) :
    ((applyOp env s op).stakes a).lockDuration = (s.stakes a).lockDuration
    ∧ ((applyOp env s op).stakes a).startTimestamp = (s.stakes a).startTimestamp
    ∧ ((s.stakes a).withdrawalRequested = true →
        ((applyOp env s op).stakes a).withdrawalRequested = true) := by
  by_cases hsd : op.sender = a
  · cases op with
    | stakeOp snd d v n f =>
      simp only [Op.sender] at hsd
      subst hsd
      cases h : stake s snd d v n f with
      | ok s' => exact absurd (stake_ok_inv h).1 (by simp [hpre])
      | error e => simp [applyOp, h]
    | requestOp snd n =>
      simp only [Op.sender] at hsd
      subst hsd
      cases h : requestWithdrawal s snd n with
      | ok s' =>
        have happ : applyOp env s (Op.requestOp snd n) = s' := by simp [applyOp, h]
        have hrec := (requestWithdrawal_ok_inv h).2.2.2.1
        rw [happ, hrec]
        exact ⟨rfl, rfl, fun _ => rfl⟩
      | error e => simp [applyOp, h]
    | finalizeOp snd cl pf =>
      simp only [Op.sender] at hsd
      subst hsd
      cases h : finalizeWithdrawal env s snd cl pf with
      | ok s' =>
        have happ : applyOp env s (Op.finalizeOp snd cl pf) = s' := by simp [applyOp, h]
        have hrec := (finalizeWithdrawal_ok_inv h).2.2.2.2.1
        rw [happ, hrec] at hpost
        exact absurd hpost (by simp [StakeData.empty])
      | error e => simp [applyOp, h]
  · rw [applyOp_frame env s op a hsd]
    exact ⟨rfl, rfl, fun hh => hh⟩

theorem self_mem_runStates (env : Env) (s : State) (ops : List Op) :
    s ∈ runStates env s ops := by
  cases ops <;> simp [runStates]

/-! ### Concrete fixtures used by the witness theorems -/

/-- A deterministic environment: the signature check accepts exactly the
cleartext `7` (for any handle set and proof), ABI decoding is the identity on
our numeric encoding, and every native transfer succeeds. -/
def wEnv : Env :=
  { checkSignatures := fun _ cl _ => cl == 7
    decodeU128 := fun cl => cl
    transferOk := fun _ _ => true }

/-- Like `wEnv` but every native transfer fails. -/
def wEnvFail : Env :=
  { wEnv with transferOk := fun _ _ => false }

/-- A ledger holding one stake for account 1 whose withdrawal was requested. -/
def wState : State :=
  { stakes := fun a =>
      if a = 1 then
        { encryptedAmount := 42, lockDuration := 86400, startTimestamp := 1000
          withdrawalRequested := true, exists_ := true }
      else StakeData.empty
    pubDecryptable := fun _ => false
    payouts := [] }

/-- A ledger holding one fresh stake for account 1 (withdrawal not requested). -/
def wStateFresh : State :=
  { stakes := fun a =>
      if a = 1 then
        { encryptedAmount := 42, lockDuration := 86400, startTimestamp := 1000
          withdrawalRequested := false, exists_ := true }
      else StakeData.empty
    pubDecryptable := fun _ => false
    payouts := [] }

/-- A ledger whose single record has both `uint64` fields at their maximum, so
the exact unlock time `2 * (2^64 - 1)` does not fit in 64 bits. -/
def wStateBig : State :=
  { stakes := fun a =>
      if a = 1 then
        { encryptedAmount := 7, lockDuration := 18446744073709551615
          startTimestamp := 18446744073709551615
          withdrawalRequested := false, exists_ := true }
      else StakeData.empty
    pubDecryptable := fun _ => false
    payouts := [] }

/-! ### The claims -/

/-- C4: `stake` tests its four error conditions in the order
`StakeAlreadyActive`, `InvalidLockDuration`, `InvalidStakeAmount`,
`StakeAmountTooLarge`; the first matching condition (transcribed from the
spec's list as `stakeErrorSpec`) is exactly the error the call returns, and a
failing call leaves the state unchanged. -/
theorem stake_error_order (env : Env) (s : State) (sender : Address) (d v n f : Nat) :
    (∀ e, stake s sender d v n f = .error e ↔ stakeErrorSpec s sender d v = some e)
    ∧ (∀ e, stake s sender d v n f = .error e →
        applyOp env s (.stakeOp sender d v n f) = s) := by
  constructor
  · intro e
    unfold stake stakeErrorSpec
    split_ifs <;> simp
  · intro e h
    simp [applyOp, h]

theorem stake_error_order_witness :
    (stake wState 1 86400 5 0 9 = .error .StakeAlreadyActive ↔
      stakeErrorSpec wState 1 86400 5 = some .StakeAlreadyActive)
    ∧ applyOp wEnv wState (.stakeOp 1 86400 5 0 9) = wState :=
  ⟨(stake_error_order wEnv wState 1 86400 5 0 9).1 .StakeAlreadyActive,
    (stake_error_order wEnv wState 1 86400 5 0 9).2 .StakeAlreadyActive rfl⟩

/-- C7: with the other preconditions met, `stake` rejects a duration strictly
below `MIN_LOCK_DURATION = 86400` or strictly above
`MAX_LOCK_DURATION = 31536000` with `InvalidLockDuration`, and accepts both
endpoints: the bounds are inclusive. -/
theorem stake_lock_bounds (s : State) (sender : Address) (d v n f : Nat)
    (hno : (s.stakes sender).exists_ = false)
    (hv0 : v ≠ 0) (hvmax : v ≤ UINT128_MAX) :
    MIN_LOCK_DURATION = 86400 ∧ MAX_LOCK_DURATION = 31536000
    ∧ (d < 86400 ∨ 31536000 < d → stake s sender d v n f = .error .InvalidLockDuration)
    ∧ (86400 ≤ d → d ≤ 31536000 → ∃ s', stake s sender d v n f = .ok s') := by
  refine ⟨rfl, rfl, ?_, ?_⟩
  · intro hd
    have hdur : d < MIN_LOCK_DURATION ∨ MAX_LOCK_DURATION < d := by
      simpa [MIN_LOCK_DURATION, MAX_LOCK_DURATION] using hd
    simp [stake, hno, hdur]
  · intro hd1 hd2
    have hdur : ¬(d < MIN_LOCK_DURATION ∨ MAX_LOCK_DURATION < d) := by
      simp only [MIN_LOCK_DURATION, MAX_LOCK_DURATION]
      omega
    have hv : ¬(UINT128_MAX < v) := by omega
    refine ⟨{ s with stakes := fun a => if a = sender then ⟨f, d, n % UINT64_MOD, false, true⟩ else s.stakes a }, ?_⟩
    unfold stake
    rw [if_neg (by simp [hno]), if_neg hdur, if_neg hv0, if_neg hv]

theorem stake_lock_bounds_witness :
    (initState.stakes 1).exists_ = false ∧ (5 : Nat) ≠ 0 ∧ (5 : Nat) ≤ UINT128_MAX
    ∧ ((3 : Nat) < 86400 ∨ (31536000 : Nat) < 3 →
        stake initState 1 3 5 0 9 = .error .InvalidLockDuration)
    ∧ ((86400 : Nat) ≤ 3 → (3 : Nat) ≤ 31536000 → ∃ s', stake initState 1 3 5 0 9 = .ok s') :=
  ⟨rfl, by decide, by decide,
    fun hd => ((stake_lock_bounds initState 1 3 5 0 9 rfl (by decide) (by decide)).2.2.1) hd,
    fun h1 h2 => ((stake_lock_bounds initState 1 3 5 0 9 rfl (by decide) (by decide)).2.2.2) h1 h2⟩

/-- C9: the unlock time is computed in 256-bit arithmetic on the two `uint64`
fields, so it is mathematically exact and never wraps: `getStakeSummary`
reports exactly `startTimestamp + lockDuration`, the 256-bit sum equals the
exact sum, and the lock comparison of `requestWithdrawal` compares against the
exact sum — even when that sum exceeds `2^64 - 1`. -/
theorem unlock_time_exact (s : State) (user : Address)
    (hex : (s.stakes user).exists_ = true)
    (hst : (s.stakes user).startTimestamp < UINT64_MOD)
    (hld : (s.stakes user).lockDuration < UINT64_MOD) :
    (getStakeSummary s user).unlockTimestamp
      = (s.stakes user).startTimestamp + (s.stakes user).lockDuration
    ∧ uint256add (s.stakes user).startTimestamp (s.stakes user).lockDuration
      = (s.stakes user).startTimestamp + (s.stakes user).lockDuration
    ∧ ∀ now : Nat,
        (now < uint256add (s.stakes user).startTimestamp (s.stakes user).lockDuration ↔
          now < (s.stakes user).startTimestamp + (s.stakes user).lockDuration) := by
  have h2 : UINT64_MOD + UINT64_MOD ≤ UINT256_MOD := by
    norm_num [UINT64_MOD, UINT256_MOD]
  have hmod : ((s.stakes user).startTimestamp + (s.stakes user).lockDuration) % UINT256_MOD
      = (s.stakes user).startTimestamp + (s.stakes user).lockDuration := by
    apply Nat.mod_eq_of_lt
    omega
  refine ⟨?_, ?_, ?_⟩
  · simp [getStakeSummary, hex, uint256add, hmod]
  · simp [uint256add, hmod]
  · intro now
    simp [uint256add, hmod]

theorem unlock_time_exact_witness :
    (wStateBig.stakes 1).exists_ = true
    ∧ (wStateBig.stakes 1).startTimestamp < UINT64_MOD
    ∧ (wStateBig.stakes 1).lockDuration < UINT64_MOD
    ∧ (getStakeSummary wStateBig 1).unlockTimestamp
        = (wStateBig.stakes 1).startTimestamp + (wStateBig.stakes 1).lockDuration :=
  ⟨rfl, by decide, by decide,
    (unlock_time_exact wStateBig 1 rfl (by decide) (by decide)).1⟩

/-- C10: an account with no record — in particular any account of the freshly
deployed contract, or one whose stake was just finalized — gets the all-zero
summary: zero handle, zero timestamps, zero duration, both flags false. -/
theorem summary_absent_zero (s : State) (a : Address) (h : s.stakes a = StakeData.empty) :
    getStakeSummary s a =
      { encryptedAmount := 0, startTimestamp := 0, unlockTimestamp := 0
        lockDuration := 0, withdrawalRequested := false, exists_ := false }
    ∧ initState.stakes a = StakeData.empty
    ∧ ∀ (env : Env) (s₀ : State) (cl pf : Nat) (s' : State),
        finalizeWithdrawal env s₀ a cl pf = .ok s' → s'.stakes a = StakeData.empty := by
  refine ⟨?_, rfl, ?_⟩
  · simp [getStakeSummary, h, StakeData.empty]
  · intro env s₀ cl pf s' hok
    exact (finalizeWithdrawal_ok_inv hok).2.2.2.2.1

theorem summary_absent_zero_witness :
    initState.stakes 5 = StakeData.empty
    ∧ getStakeSummary initState 5 =
        { encryptedAmount := 0, startTimestamp := 0, unlockTimestamp := 0
          lockDuration := 0, withdrawalRequested := false, exists_ := false } :=
  ⟨rfl, (summary_absent_zero initState 5 rfl).1⟩

/-- C1: `finalizeWithdrawal` deletes the record (src line 146) strictly before
invoking the transfer (line 148): `eraseStake s sender` is the ledger state in
force while a transfer initiated by a `finalizeWithdrawal` that passed all its
checks is in progress, and in that state a reentrant `finalizeWithdrawal` by
the same account fails with `NoActiveStake`, whatever arguments it passes. -/
theorem finalize_reentrancy_blocked (env env₂ : Env) (s : State) (sender : Address)
    (cl pf cl₂ pf₂ : Nat)
    (hex : (s.stakes sender).exists_ = true)
    (hwr : (s.stakes sender).withdrawalRequested = true)
    (hsig : env.checkSignatures [toBytes32 (s.stakes sender).encryptedAmount] cl pf = true) :
    finalizeWithdrawal env₂ (eraseStake s sender) sender cl₂ pf₂ = .error .NoActiveStake := by
  simp [finalizeWithdrawal, eraseStake, StakeData.empty]

theorem finalize_reentrancy_blocked_witness :
    (wState.stakes 1).exists_ = true
    ∧ (wState.stakes 1).withdrawalRequested = true
    ∧ wEnv.checkSignatures [toBytes32 (wState.stakes 1).encryptedAmount] 7 3 = true
    ∧ finalizeWithdrawal wEnv (eraseStake wState 1) 1 7 3 = .error .NoActiveStake :=
  ⟨rfl, rfl, rfl, finalize_reentrancy_blocked wEnv wEnv wState 1 7 3 7 3 rfl rfl rfl⟩

/-- C2: when the record and flag checks and the proof check pass but the native
transfer fails, `finalizeWithdrawal` reverts with `TransferFailed`, and the
transaction-level state (`applyOp`) is exactly the pre-call state: the record
deleted before the transfer is back with all its fields, and no payout was
made. -/
theorem finalize_transfer_fail_rollback (env : Env) (s : State) (sender : Address)
    (cl pf : Nat)
    (hex : (s.stakes sender).exists_ = true)
    (hwr : (s.stakes sender).withdrawalRequested = true)
    (hsig : env.checkSignatures [toBytes32 (s.stakes sender).encryptedAmount] cl pf = true)
    (hfail : env.transferOk sender (env.decodeU128 cl) = false) :
    finalizeWithdrawal env s sender cl pf = .error .TransferFailed
    ∧ applyOp env s (.finalizeOp sender cl pf) = s
    ∧ (applyOp env s (.finalizeOp sender cl pf)).stakes sender = s.stakes sender
    ∧ (applyOp env s (.finalizeOp sender cl pf)).payouts = s.payouts := by
  have h1 : finalizeWithdrawal env s sender cl pf = .error .TransferFailed := by
    simp [finalizeWithdrawal, hex, hwr, hsig, hfail]
  refine ⟨h1, ?_, ?_, ?_⟩ <;> simp [applyOp, h1]

theorem finalize_transfer_fail_rollback_witness :
    (wState.stakes 1).exists_ = true
    ∧ (wState.stakes 1).withdrawalRequested = true
    ∧ wEnvFail.checkSignatures [toBytes32 (wState.stakes 1).encryptedAmount] 7 3 = true
    ∧ wEnvFail.transferOk 1 (wEnvFail.decodeU128 7) = false
    ∧ finalizeWithdrawal wEnvFail wState 1 7 3 = .error .TransferFailed
    ∧ applyOp wEnvFail wState (.finalizeOp 1 7 3) = wState :=
  ⟨rfl, rfl, rfl, rfl,
    (finalize_transfer_fail_rollback wEnvFail wState 1 7 3 rfl rfl rfl rfl).1,
    (finalize_transfer_fail_rollback wEnvFail wState 1 7 3 rfl rfl rfl rfl).2.1⟩

/-- C3: a cleartext/proof pair the signature check rejects against the record's
single handle makes `finalizeWithdrawal` fail with `ProofVerificationFailed`
and mutate nothing, and a subsequent call on the same record with a verifying
pair (whose transfer succeeds) still succeeds. -/
theorem finalize_bad_proof_intact (env : Env) (s : State) (sender : Address) (cl pf : Nat)
    (hex : (s.stakes sender).exists_ = true)
    (hwr : (s.stakes sender).withdrawalRequested = true)
    (hsig : env.checkSignatures [toBytes32 (s.stakes sender).encryptedAmount] cl pf = false) :
    finalizeWithdrawal env s sender cl pf = .error .ProofVerificationFailed
    ∧ applyOp env s (.finalizeOp sender cl pf) = s
    ∧ ∀ cl' pf',
        env.checkSignatures [toBytes32 (s.stakes sender).encryptedAmount] cl' pf' = true →
        env.transferOk sender (env.decodeU128 cl') = true →
        ∃ s', finalizeWithdrawal env s sender cl' pf' = .ok s' := by
  have h1 : finalizeWithdrawal env s sender cl pf = .error .ProofVerificationFailed := by
    simp [finalizeWithdrawal, hex, hwr, hsig]
  refine ⟨h1, by simp [applyOp, h1], ?_⟩
  intro cl' pf' hsig' htr
  exact finalizeWithdrawal_succeeds hex hwr hsig' htr

theorem finalize_bad_proof_intact_witness :
    (wState.stakes 1).exists_ = true
    ∧ (wState.stakes 1).withdrawalRequested = true
    ∧ wEnv.checkSignatures [toBytes32 (wState.stakes 1).encryptedAmount] 8 3 = false
    ∧ finalizeWithdrawal wEnv wState 1 8 3 = .error .ProofVerificationFailed
    ∧ applyOp wEnv wState (.finalizeOp 1 8 3) = wState :=
  ⟨rfl, rfl, rfl,
    (finalize_bad_proof_intact wEnv wState 1 8 3 rfl rfl rfl).1,
    (finalize_bad_proof_intact wEnv wState 1 8 3 rfl rfl rfl).2.1⟩

/-- C6: for an existing record whose withdrawal was not yet requested,
`requestWithdrawal` strictly before `startTimestamp + lockDuration` fails with
`LockPeriodActive`, and at or after that instant it succeeds, setting
`withdrawalRequested` and marking the record's handle publicly decryptable. -/
theorem requestWithdrawal_time_gate (s : State) (sender : Address) (now : Nat)
    (hex : (s.stakes sender).exists_ = true)
    (hwr : (s.stakes sender).withdrawalRequested = false)
    (hst : (s.stakes sender).startTimestamp < UINT64_MOD)
    (hld : (s.stakes sender).lockDuration < UINT64_MOD) :
    (now < (s.stakes sender).startTimestamp + (s.stakes sender).lockDuration →
      requestWithdrawal s sender now = .error .LockPeriodActive)
    ∧ ((s.stakes sender).startTimestamp + (s.stakes sender).lockDuration ≤ now →
        ∃ s', requestWithdrawal s sender now = .ok s'
          ∧ (s'.stakes sender).withdrawalRequested = true
          ∧ s'.pubDecryptable (s.stakes sender).encryptedAmount = true) := by
  have h2 : UINT64_MOD + UINT64_MOD ≤ UINT256_MOD := by
    norm_num [UINT64_MOD, UINT256_MOD]
  have hmod : uint256add (s.stakes sender).startTimestamp (s.stakes sender).lockDuration
      = (s.stakes sender).startTimestamp + (s.stakes sender).lockDuration := by
    unfold uint256add
    apply Nat.mod_eq_of_lt
    omega
  constructor
  · intro hlt
    simp [requestWithdrawal, hex, hmod, hlt]
  · intro hge
    have hnlt : ¬ now < uint256add (s.stakes sender).startTimestamp
        (s.stakes sender).lockDuration := by
      rw [hmod]
      omega
    refine ⟨{ s with
        stakes := fun a =>
          if a = sender then { s.stakes sender with withdrawalRequested := true }
          else s.stakes a
        pubDecryptable := fun h =>
          if h = (s.stakes sender).encryptedAmount then true else s.pubDecryptable h },
      ?_, by simp, by simp⟩
    simp only [requestWithdrawal]
    rw [if_neg (by simp [hex]), if_neg hnlt, if_neg (by simp [hwr])]

theorem requestWithdrawal_time_gate_witness :
    (wStateFresh.stakes 1).exists_ = true
    ∧ (wStateFresh.stakes 1).withdrawalRequested = false
    ∧ (wStateFresh.stakes 1).startTimestamp < UINT64_MOD
    ∧ (wStateFresh.stakes 1).lockDuration < UINT64_MOD
    ∧ ((wStateFresh.stakes 1).startTimestamp + (wStateFresh.stakes 1).lockDuration ≤ 87400 →
        ∃ s', requestWithdrawal wStateFresh 1 87400 = .ok s'
          ∧ (s'.stakes 1).withdrawalRequested = true
          ∧ s'.pubDecryptable (wStateFresh.stakes 1).encryptedAmount = true) :=
  ⟨rfl, rfl, by decide, by decide,
    (requestWithdrawal_time_gate wStateFresh 1 87400 rfl rfl (by decide) (by decide)).2⟩

/-- C8: every mutating operation (`stake`, `requestWithdrawal`,
`finalizeWithdrawal`) performed by one account leaves the ledger record of
every other account unchanged, whether it succeeds or reverts. -/
theorem frame_other_accounts (env : Env) (s : State) (op : Op) (b : Address)
    (hne : op.sender ≠ b) :
    (applyOp env s op).stakes b = s.stakes b :=
  applyOp_frame env s op b hne

theorem frame_other_accounts_witness :
    (Op.requestOp 1 87400).sender ≠ 2
    ∧ (applyOp wEnv wStateFresh (Op.requestOp 1 87400)).stakes 2 = wStateFresh.stakes 2 :=
  ⟨by decide, frame_other_accounts wEnv wStateFresh (Op.requestOp 1 87400) 2 (by decide)⟩

/-- C5: along any sequence of operations during which an account's record is
never destroyed (it exists in every intermediate state), the record's
`lockDuration` and `startTimestamp` stay exactly as `stake` created them, and
`withdrawalRequested`, once true, stays true. -/
theorem record_fields_immutable (env : Env) (s : State) (ops : List Op) (a : Address)
    (hall : ∀ t ∈ runStates env s ops, (t.stakes a).exists_ = true) :
    ((runOps env s ops).stakes a).lockDuration = (s.stakes a).lockDuration
    ∧ ((runOps env s ops).stakes a).startTimestamp = (s.stakes a).startTimestamp
    ∧ ((s.stakes a).withdrawalRequested = true →
        ((runOps env s ops).stakes a).withdrawalRequested = true) := by
  revert hall
  induction ops generalizing s with
  | nil =>
    intro hall
    exact ⟨rfl, rfl, fun h => h⟩
  | cons op ops ih =>
    intro hall
    have hpre : (s.stakes a).exists_ = true := hall s (by simp [runStates])
    have hpost : ((applyOp env s op).stakes a).exists_ = true := by
      refine hall (applyOp env s op) ?_
      simp only [runStates]
      exact List.mem_cons_of_mem _ (self_mem_runStates env (applyOp env s op) ops)
    have hstep := applyOp_step_fields env s op a hpre hpost
    have hall' : ∀ t ∈ runStates env (applyOp env s op) ops, (t.stakes a).exists_ = true := by
      intro t ht
      refine hall t ?_
      simp only [runStates]
      exact List.mem_cons_of_mem _ ht
    have hrun : runOps env s (op :: ops) = runOps env (applyOp env s op) ops := rfl
    rw [hrun]
    obtain ⟨hl, hs2, hw⟩ := ih (applyOp env s op) hall'
    exact ⟨hl.trans hstep.1, hs2.trans hstep.2.1, fun hh => hw (hstep.2.2 hh)⟩

theorem record_fields_immutable_witness :
    (∀ t ∈ runStates wEnv wStateFresh [Op.requestOp 1 87400], (t.stakes 1).exists_ = true)
    ∧ ((runOps wEnv wStateFresh [Op.requestOp 1 87400]).stakes 1).lockDuration
        = (wStateFresh.stakes 1).lockDuration
    ∧ ((runOps wEnv wStateFresh [Op.requestOp 1 87400]).stakes 1).startTimestamp
        = (wStateFresh.stakes 1).startTimestamp :=
  ⟨by decide,
    (record_fields_immutable wEnv wStateFresh [Op.requestOp 1 87400] 1 (by decide)).1,
    (record_fields_immutable wEnv wStateFresh [Op.requestOp 1 87400] 1 (by decide)).2.1⟩

end PrismLock
